import Mathlib

/-!
Windows serial-port backend (`src/serialport_win.cpp`).

A shallow embedding of the worker functions of the Windows backend:
`ErrorCodeToString`, `EIO_Open`, `EIO_WatchPort`, `IsClosingHandle`,
`EIO_AfterWatchPort`, `AfterOpenSuccess`, `EIO_Write`, `EIO_Close` and `EIO_List`.

Conventions of the embedding.

* C strings are `List Char` (no terminator, no embedded NUL).
* The operating system is an explicit input: every native call that the code
  makes gets its answer from an argument (`NativeResult`, `OpenEnv`, a script of
  `IoAttempt`s for the loops).  What the code hands to the operating system or to
  JavaScript is returned as a trace of calls.
* A blocking loop (`EIO_WatchPort`, `EIO_Write`) consumes one scripted answer per
  turn; `none` means the script ended while the loop was still turning.
* Buffer contents, the event objects of the overlapped calls and the COM set-up of
  `EIO_List` are left out: no branch of the code depends on them.
* A `DWORD` or `size_t` value is a natural number, an `int` an integer.  `EIO_Write`
  converts the `DWORD` count to `int` and adds it to a `size_t` of 64 bits, both
  with wrap-around.
* `HANDLE` values and the `int` they are cast from and to are the same integer.
-/

namespace SerialportWin

/-! ## Constants of the Windows headers -/

def ERROR_FILE_NOT_FOUND : Nat := 2
def ERROR_ACCESS_DENIED : Nat := 5
def ERROR_INVALID_HANDLE : Nat := 6
def ERROR_OPERATION_ABORTED : Nat := 995
def ERROR_IO_PENDING : Nat := 997

def NOPARITY : Nat := 0
def ODDPARITY : Nat := 1
def EVENPARITY : Nat := 2
def MARKPARITY : Nat := 3
def SPACEPARITY : Nat := 4

def ONESTOPBIT : Nat := 0
def ONE5STOPBITS : Nat := 1
def TWOSTOPBITS : Nat := 2

def DTR_CONTROL_DISABLE : Nat := 0
def DTR_CONTROL_ENABLE : Nat := 1
def RTS_CONTROL_ENABLE : Nat := 1

def FILE_SHARE_READ : Nat := 1
def FILE_SHARE_WRITE : Nat := 2

def PURGE_TXCLEAR : Nat := 4
def PURGE_RXCLEAR : Nat := 8

/-- Line 11: `#define MAX_BUFFER_SIZE 1000`. -/
def MAX_BUFFER_SIZE : Int := 1000

/-- Size of every `errorString` buffer.  The constant is declared in `serialport.h`,
which is not among the sources; 1024 is the value of the upstream header. -/
def ERROR_STRING_SIZE : Nat := 1024

/-! ## Answers of native calls -/

/-- Answer of a native call that either succeeds with a value or fails and leaves a
code for `GetLastError`. -/
inductive Native (α : Type) where
  | ok (value : α)
  | failed (lastError : Nat)
  deriving DecidableEq

/-- Answer of `ReadFile`, `WriteFile` or `GetOverlappedResult`: `TRUE` with a byte
count, or `FALSE` with the code that `GetLastError` then returns. -/
abbrev NativeResult := Native Nat

/-- Answers of the operating system to one turn of an overlapped I/O loop: the answer
of `ReadFile`/`WriteFile`, and the answer `GetOverlappedResult` gives if the code
goes on to wait for the operation. -/
structure IoAttempt where
  start : NativeResult
  overlapped : NativeResult
  deriving DecidableEq

/-! ## `ErrorCodeToString` (lines 26-44) -/

/-- Conversion of a `DWORD` to the `int` parameter of `ErrorCodeToString`. -/
def dwordToInt (n : Nat) : Int :=
  if n % 2 ^ 32 < 2 ^ 31 then ((n % 2 ^ 32 : Nat) : Int) else ((n % 2 ^ 32 : Nat) : Int) - 2 ^ 32

/-- Rendering of `%d`. -/
def formatInt (i : Int) : List Char :=
  if i < 0 then '-' :: Nat.toDigits 10 i.natAbs else Nat.toDigits 10 i.toNat

/-- Effect of `_snprintf_s(buf, size, _TRUNCATE, ...)`: at most `size - 1` characters are kept. -/
def truncateTo (size : Nat) (s : List Char) : List Char := s.take (size - 1)

/-- Function `ErrorCodeToString(prefix, errorCode, errorStr)`; the result is the new content of
`errorStr`. -/
def ErrorCodeToString (pfx : List Char) (errorCode : Int) : List Char :=
  if errorCode = ERROR_FILE_NOT_FOUND then
    truncateTo ERROR_STRING_SIZE (pfx ++ ": File not found".toList)
  else if errorCode = ERROR_INVALID_HANDLE then
    truncateTo ERROR_STRING_SIZE (pfx ++ ": Invalid handle".toList)
  else if errorCode = ERROR_ACCESS_DENIED then
    truncateTo ERROR_STRING_SIZE (pfx ++ ": Access denied".toList)
  else if errorCode = ERROR_OPERATION_ABORTED then
    truncateTo ERROR_STRING_SIZE (pfx ++ ": operation aborted".toList)
  else
    truncateTo ERROR_STRING_SIZE (pfx ++ ": Unknown error code ".toList ++ formatInt errorCode)

/-! ## `EIO_Open` (lines 46-169) -/

/-- Enumeration `SerialPortParity` of `serialport.h`. -/
inductive SerialPortParity where
  | SERIALPORT_PARITY_NONE
  | SERIALPORT_PARITY_MARK
  | SERIALPORT_PARITY_EVEN
  | SERIALPORT_PARITY_ODD
  | SERIALPORT_PARITY_SPACE
  deriving DecidableEq

/-- Enumeration `SerialPortStopBits` of `serialport.h`. -/
inductive SerialPortStopBits where
  | SERIALPORT_STOPBITS_ONE
  | SERIALPORT_STOPBITS_ONE_FIVE
  | SERIALPORT_STOPBITS_TWO
  deriving DecidableEq

/-- The fields of `OpenBaton` that `EIO_Open` uses. -/
structure OpenBaton where
  path : List Char
  lock : Bool
  hupcl : Bool
  bufferSize : Int
  baudRate : Nat
  dataBits : Nat
  parity : SerialPortParity
  stopBits : SerialPortStopBits
  errorString : List Char
  result : Int
  deriving DecidableEq

/-- The fields of the Windows `DCB` that `EIO_Open` writes, and three (`DCBlength`,
`fParity`, `fDsrSensitivity`) it leaves as `GetCommState` filled them. -/
structure DCB where
  DCBlength : Nat
  BaudRate : Nat
  fBinary : Bool
  fParity : Bool
  fOutxCtsFlow : Bool
  fOutxDsrFlow : Bool
  fDtrControl : Nat
  fDsrSensitivity : Bool
  fOutX : Bool
  fInX : Bool
  fRtsControl : Nat
  ByteSize : Nat
  Parity : Nat
  StopBits : Nat
  deriving DecidableEq

/-- Answers of the native calls of `EIO_Open`, in the order the code makes them. -/
structure OpenEnv where
  createFile : Native Int
  getCommState : Native DCB
  setCommState : Native Unit
  setCommTimeouts : Native Unit

/-- Native calls with an effect that `EIO_Open` makes. -/
inductive OpenCall where
  | createFile (shareMode : Nat)
  | getCommState (file : Int)
  | setCommState (file : Int) (dcb : DCB)
  | setCommTimeouts (file : Int)
  | purgeComm (file : Int) (flags : Nat)
  | closeHandle (file : Int)
  deriving DecidableEq

/-- State after `EIO_Open`: the baton, the global `bufferSize` and the native calls made. -/
structure OpenOutcome where
  data : OpenBaton
  bufferSize : Int
  calls : List OpenCall
  deriving DecidableEq

/-- Lines 114-130: the `switch` on `data->parity`. -/
def parityCode : SerialPortParity → Nat
  | .SERIALPORT_PARITY_NONE => NOPARITY
  | .SERIALPORT_PARITY_MARK => MARKPARITY
  | .SERIALPORT_PARITY_EVEN => EVENPARITY
  | .SERIALPORT_PARITY_ODD => ODDPARITY
  | .SERIALPORT_PARITY_SPACE => SPACEPARITY

/-- Lines 132-142: the `switch` on `data->stopBits`. -/
def stopBitsCode : SerialPortStopBits → Nat
  | .SERIALPORT_STOPBITS_ONE => ONESTOPBIT
  | .SERIALPORT_STOPBITS_ONE_FIVE => ONE5STOPBITS
  | .SERIALPORT_STOPBITS_TWO => TWOSTOPBITS

/-- Lines 95-142: the `DCB` read by `GetCommState` after `EIO_Open` has overwritten its
fields.  `ByteSize` is a `BYTE`. -/
def configureDCB (data : OpenBaton) (dcb : DCB) : DCB :=
  let dcb :=
    if data.hupcl then { dcb with fDtrControl := DTR_CONTROL_ENABLE }
    else { dcb with fDtrControl := DTR_CONTROL_DISABLE }
  let dcb := { dcb with
    Parity := NOPARITY, ByteSize := 8, StopBits := ONESTOPBIT,
    fInX := false, fOutX := false, fOutxDsrFlow := false, fOutxCtsFlow := false,
    fRtsControl := RTS_CONTROL_ENABLE }
  let dcb := { dcb with fBinary := true, BaudRate := data.baudRate, ByteSize := data.dataBits % 256 }
  let dcb := { dcb with Parity := parityCode data.parity }
  { dcb with StopBits := stopBitsCode data.stopBits }

/-- Function `EIO_Open`.  The rewriting of `data->path` (lines 49-55) only fixes the name given to
`CreateFile`, whose answer comes from `env`; the message of a failed `CreateFile` uses
the original path. -/
def EIO_Open (env : OpenEnv) (bufferSize : Int) (data : OpenBaton) : OpenOutcome :=
  let originalPath := truncateTo 1024 data.path
  let shareMode := if data.lock then 0 else FILE_SHARE_READ ||| FILE_SHARE_WRITE
  match env.createFile with
  | .failed errorCode =>
    let temp := truncateTo 100 ("Opening ".toList ++ originalPath)
    { data := { data with errorString := ErrorCodeToString temp (dwordToInt errorCode) },
      bufferSize := bufferSize,
      calls := [.createFile shareMode] }
  | .ok file =>
    let bufferSize := if data.bufferSize > MAX_BUFFER_SIZE then MAX_BUFFER_SIZE else data.bufferSize
    match env.getCommState with
    | .failed e =>
      { data := { data with
          errorString := ErrorCodeToString "Open (GetCommState)".toList (dwordToInt e) },
        bufferSize := bufferSize,
        calls := [.createFile shareMode, .getCommState file, .closeHandle file] }
    | .ok dcb0 =>
      let dcb := configureDCB data dcb0
      match env.setCommState with
      | .failed e =>
        { data := { data with
            errorString := ErrorCodeToString "Open (SetCommState)".toList (dwordToInt e) },
          bufferSize := bufferSize,
          calls := [.createFile shareMode, .getCommState file, .setCommState file dcb,
            .closeHandle file] }
      | .ok _ =>
        match env.setCommTimeouts with
        | .failed e =>
          { data := { data with
              errorString := ErrorCodeToString "Open (SetCommTimeouts)".toList (dwordToInt e) },
            bufferSize := bufferSize,
            calls := [.createFile shareMode, .getCommState file, .setCommState file dcb,
              .setCommTimeouts file, .closeHandle file] }
        | .ok _ =>
          { data := { data with result := file },
            bufferSize := bufferSize,
            calls := [.createFile shareMode, .getCommState file, .setCommState file dcb,
              .setCommTimeouts file, .purgeComm file PURGE_RXCLEAR,
              .purgeComm file PURGE_TXCLEAR] }

/-- The `DCB` that a run of `EIO_Open` handed to `SetCommState`, if it got that far. -/
def setCommStateArg : List OpenCall → Option DCB
  | [] => none
  | .setCommState _ dcb :: _ => some dcb
  | _ :: rest => setCommStateArg rest

/-! ## The read loop (lines 171-181, 258-397) -/

/-- The fields of `WatchPortBaton` other than the buffer and the three callbacks, which
every baton of one port shares. -/
structure WatchPortBaton where
  fd : Int
  bytesRead : Nat
  errorString : List Char
  errorCode : Nat
  disconnected : Bool
  deriving DecidableEq

/-- The `while (true)` loop of `EIO_WatchPort` (lines 268-318), one scripted
`IoAttempt` per turn: `start` answers `ReadFile`, `overlapped` answers
`GetOverlappedResult`.  `some` is the baton with which the function returns. -/
def watchLoop (data : WatchPortBaton) : List IoAttempt → Option WatchPortBaton
  | [] => none
  | io :: rest =>
    match io.start with
    | .failed lastError =>
      let data := { data with errorCode := lastError }
      if data.errorCode ≠ ERROR_IO_PENDING then
        if data.errorCode = ERROR_OPERATION_ABORTED then
          some { data with disconnected := true }
        else
          let pfx := "Reading from COM port (ReadFile)".toList
          some { data with errorString := ErrorCodeToString pfx (dwordToInt data.errorCode) }
      else
        match io.overlapped with
        | .failed lastError =>
          let data := { data with errorCode := lastError }
          if data.errorCode = ERROR_OPERATION_ABORTED then
            some { data with disconnected := true }
          else
            let pfx := "Reading from COM port (GetOverlappedResult)".toList
            some { data with errorString := ErrorCodeToString pfx (dwordToInt data.errorCode) }
        | .ok bytesReadAsync =>
          let data := { data with bytesRead := bytesReadAsync }
          if data.bytesRead > 0 then some data else watchLoop data rest
    | .ok bytesReadSync =>
      let data := { data with bytesRead := bytesReadSync }
      if data.bytesRead > 0 then some data else watchLoop data rest

/-- Function `EIO_WatchPort`: reset `bytesRead` and `disconnected`, then run the loop. -/
def EIO_WatchPort (data : WatchPortBaton) (script : List IoAttempt) : Option WatchPortBaton :=
  watchLoop { data with bytesRead := 0, disconnected := false } script

/-- Function `AfterOpenSuccess` (lines 385-397): the zeroed baton of the iteration it queues. -/
def AfterOpenSuccess (fd : Int) : WatchPortBaton :=
  { fd := fd, bytesRead := 0, errorString := [], errorCode := 0, disconnected := false }

/-- The scan of `IsClosingHandle` from iterator position `it` over the list `g`. -/
def isClosingHandleFrom (g : List Int) (fd : Int) : List Int → Bool × List Int
  | [] => (false, g)
  | x :: it =>
    if fd = x then (true, g.filter (fun y => y ≠ fd)) else isClosingHandleFrom g fd it

/-- Function `IsClosingHandle` (lines 323-331) on the global `g_closingHandles`: the answer and the
new value of the global.  `std::list::remove` erases every element equal to `fd`. -/
def IsClosingHandle (g_closingHandles : List Int) (fd : Int) : Bool × List Int :=
  isClosingHandleFrom g_closingHandles fd g_closingHandles

/-- What `EIO_AfterWatchPort` does, in order. -/
inductive WatchAction where
  | disconnectedCallback
  | dataCallback (bytesRead : Nat)
  | errorCallback (message : List Char)
  | sleep (ms : Nat)
  | disposeWatchPortCallbacks
  | queueWatchPort (baton : WatchPortBaton)
  | deleteBaton
  deriving DecidableEq

/-- Trace of `EIO_AfterWatchPort` and the global `g_closingHandles` after it. -/
structure AfterWatchOutcome where
  actions : List WatchAction
  g_closingHandles : List Int
  deriving DecidableEq

/-- Function `EIO_AfterWatchPort` (lines 349-383).  After a data callback the baton is kept
(`skipCleanup`), otherwise it is deleted at `cleanup`.  The `goto cleanup` of the
disconnected branch jumps over the initialisation of `skipCleanup`, so what `cleanup`
reads there is whatever the stack holds: the argument `skipCleanupAtGoto`. -/
def EIO_AfterWatchPort (g_closingHandles : List Int) (skipCleanupAtGoto : Bool)
    (data : WatchPortBaton) : AfterWatchOutcome :=
  if data.disconnected then
    { actions := [.disconnectedCallback, .disposeWatchPortCallbacks] ++
        (if !skipCleanupAtGoto then [.deleteBaton] else []),
      g_closingHandles := g_closingHandles }
  else if data.bytesRead > 0 then
    { actions := [.dataCallback data.bytesRead, .queueWatchPort (AfterOpenSuccess data.fd)],
      g_closingHandles := g_closingHandles }
  else if data.errorCode > 0 then
    if data.errorCode = ERROR_INVALID_HANDLE then
      let closing := IsClosingHandle g_closingHandles data.fd
      if closing.1 then
        { actions := [.disposeWatchPortCallbacks, .deleteBaton], g_closingHandles := closing.2 }
      else
        { actions := [.errorCallback data.errorString, .sleep 100,
            .queueWatchPort (AfterOpenSuccess data.fd), .deleteBaton],
          g_closingHandles := closing.2 }
    else
      { actions := [.errorCallback data.errorString, .sleep 100,
          .queueWatchPort (AfterOpenSuccess data.fd), .deleteBaton],
        g_closingHandles := g_closingHandles }
  else
    { actions := [.queueWatchPort (AfterOpenSuccess data.fd), .deleteBaton],
      g_closingHandles := g_closingHandles }

/-- Whether an action calls one of the three JavaScript callbacks. -/
def WatchAction.isCallback : WatchAction → Bool
  | .disconnectedCallback => true
  | .dataCallback _ => true
  | .errorCallback _ => true
  | _ => false

/-- Whether an action queues a further read iteration. -/
def WatchAction.isQueue : WatchAction → Bool
  | .queueWatchPort _ => true
  | _ => false

/-! ## `EIO_Close` (lines 442-460) -/

/-- The fields of `VoidBaton` that `EIO_Close` uses. -/
structure VoidBaton where
  fd : Int
  errorString : List Char
  deriving DecidableEq

/-- Native calls of `EIO_Close`. -/
inductive CloseCall where
  | cancelIoEx (fd : Int)
  | closeHandle (fd : Int)
  deriving DecidableEq

/-- State after `EIO_Close`. -/
structure CloseOutcome where
  data : VoidBaton
  g_closingHandles : List Int
  calls : List CloseCall
  deriving DecidableEq

/-- Function `EIO_Close`.  `pCancelIoEx` says whether `GetProcAddress` found `CancelIoEx`;
`closeHandle` is the answer of `CloseHandle`. -/
def EIO_Close (g_closingHandles : List Int) (pCancelIoEx : Bool) (closeHandle : Native Unit)
    (data : VoidBaton) : CloseOutcome :=
  let g := g_closingHandles ++ [data.fd]
  let cancel := if pCancelIoEx then [CloseCall.cancelIoEx data.fd] else []
  match closeHandle with
  | .failed e =>
    { data := { data with
        errorString := ErrorCodeToString "closing connection".toList (dwordToInt e) },
      g_closingHandles := g,
      calls := cancel ++ [.closeHandle data.fd] }
  | .ok _ =>
    { data := data, g_closingHandles := g, calls := cancel ++ [.closeHandle data.fd] }

/-! ## `EIO_Write` (lines 399-440) -/

/-- The fields of `WriteBaton` that `EIO_Write` uses; `bufferData` points to a payload of
`bufferLength` bytes.  `bufferLength` and `offset` are `size_t`, `result` is `int`. -/
structure WriteBaton where
  fd : Int
  bufferLength : Nat
  offset : Nat
  result : Int
  errorString : List Char
  deriving DecidableEq

/-- Line 437, `data->offset += data->result`: the `int` is converted to `size_t` and the
sum is taken modulo `2 ^ 64`. -/
def sizeAdd (offset : Nat) (result : Int) : Nat :=
  (((offset : Int) + result) % 2 ^ 64).toNat

/-- Arguments of one `WriteFile` call: where `lpBuffer` points, counted in bytes from
`data->bufferData`, and `nNumberOfBytesToWrite`. -/
structure WriteFileCall where
  bufferStart : Nat
  nNumberOfBytesToWrite : Nat
  deriving DecidableEq

/-- State after `EIO_Write`: the baton and the `WriteFile` calls issued, in order. -/
structure WriteOutcome where
  data : WriteBaton
  calls : List WriteFileCall
  deriving DecidableEq

/-- Lines 412-434: one sub-write.  Either the number of bytes the operation reports
(`bytesWritten`), or the message left in `errorString` before the early `return`. -/
def subWrite (io : IoAttempt) : Except (List Char) Nat :=
  match io.start with
  | .failed lastError =>
    if lastError ≠ ERROR_IO_PENDING then
      .error (ErrorCodeToString "Writing to COM port (WriteFile)".toList (dwordToInt lastError))
    else
      match io.overlapped with
      | .failed lastError =>
        .error (ErrorCodeToString "Writing to COM port (GetOverlappedResult)".toList
          (dwordToInt lastError))
      | .ok bytesWritten => .ok bytesWritten
  | .ok bytesWritten => .ok bytesWritten

/-- The `do ... while (data->bufferLength > data->offset)` loop of `EIO_Write`, one
scripted `IoAttempt` per turn.  Every turn passes `data->bufferData` and
`static_cast<DWORD>(data->bufferLength)` to `WriteFile` (line 413); line 436 stores the
`DWORD` count in the `int` `data->result`, line 437 adds that `int` to the `size_t`
`data->offset`. -/
def writeLoop (data : WriteBaton) (calls : List WriteFileCall) :
    List IoAttempt → Option WriteOutcome
  | [] => none
  | io :: rest =>
    let calls := calls ++ [{ bufferStart := 0, nNumberOfBytesToWrite := data.bufferLength % 2 ^ 32 }]
    match subWrite io with
    | .error message => some { data := { data with errorString := message }, calls := calls }
    | .ok bytesWritten =>
      let data := { data with result := dwordToInt bytesWritten }
      let data := { data with offset := sizeAdd data.offset data.result }
      if data.bufferLength > data.offset then writeLoop data calls rest
      else some { data := data, calls := calls }

/-- Function `EIO_Write`: `data->result = 0`, then the loop. -/
def EIO_Write (data : WriteBaton) (script : List IoAttempt) : Option WriteOutcome :=
  writeLoop { data with result := 0 } [] script

/-- Bytes a sub-write adds to the offset: its reported count, nothing if it fails. -/
def bytesOf (io : IoAttempt) : Nat :=
  match subWrite io with
  | .ok n => n
  | .error _ => 0

/-! ## `EIO_List` (lines 478-545) -/

/-- The three properties of a `Win32_PnPEntity` row that the code reads; `none` is a
null string. -/
structure PnPEntity where
  Name : Option (List Char)
  PnPDeviceID : Option (List Char)
  Manufacturer : Option (List Char)
  deriving DecidableEq

/-- Record `ListResultItem` with its three strings. -/
structure ListResultItem where
  comName : List Char
  manufacturer : List Char
  pnpId : List Char
  deriving DecidableEq

/-- C `strstr`: the part of the haystack that starts at the first occurrence of the
needle. -/
def strstr : List Char → List Char → Option (List Char)
  | [], needle => if needle = [] then some [] else none
  | c :: cs, needle => if needle.isPrefixOf (c :: cs) then some (c :: cs) else strstr cs needle

/-- First call of C `strtok` on a string: leading delimiters are skipped and the token
runs up to the next delimiter; `none` if nothing but delimiters is left. -/
def strtok (s delims : List Char) : Option (List Char) :=
  let s := s.dropWhile (fun c => delims.contains c)
  if s = [] then none else some (s.takeWhile (fun c => !delims.contains c))

/-- Whether `stricmp(a, b) == 0`: equality after lower-casing the letters `A`-`Z`. -/
def stricmpIsZero (a b : List Char) : Bool :=
  a.map Char.toLower == b.map Char.toLower

/-- What lines 498-512 do for one row: push nothing, push a record, or assign a null
`char*` to one of the `std::string` fields of the record (lines 507-509), where the
process dies. -/
inductive RowOutcome where
  | skipped
  | pushed (resultItem : ListResultItem)
  | nullAssigned
  deriving DecidableEq

/-- Lines 498-512 for one device.  A row whose name holds `(COM` gets a record; its
manufacturer and identifier are assigned without a null check. -/
def wmiRecord (objDevice : PnPEntity) : RowOutcome :=
  match objDevice.Name with
  | none => .skipped
  | some name =>
    match strstr name "(COM".toList with
    | none => .skipped
    | some found =>
      match strtok found "()".toList, objDevice.Manufacturer, objDevice.PnPDeviceID with
      | some comname, some manu, some pnpid =>
        .pushed { comName := comname, manufacturer := manu, pnpId := pnpid }
      | _, _, _ => .nullAssigned

/-- The `FOR_EACH` loop over the WMI rows (lines 492-516); `none` when a null string is
assigned and no list is returned. -/
def wmiLoop (results : List ListResultItem) : List PnPEntity → Option (List ListResultItem)
  | [] => some results
  | objDevice :: rest =>
    match wmiRecord objDevice with
    | .skipped => wmiLoop results rest
    | .pushed resultItem => wmiLoop (results ++ [resultItem]) rest
    | .nullAssigned => none

/-- Line 528: `"COM%u"`.  A `UINT` has at most ten digits, so the 64-byte buffer never
truncates. -/
def comNameOf (port : Nat) : List Char := "COM".toList ++ Nat.toDigits 10 port

/-- Lines 537-540: the record synthesised for a port number. -/
def secondaryRecord (port : Nat) : ListResultItem :=
  { comName := comNameOf port, manufacturer := [], pnpId := [] }

/-- Lines 529-535: the search that sets `bFound`. -/
def bFound (results : List ListResultItem) (comname : List Char) : Bool :=
  results.any (fun ri => stricmpIsZero ri.comName comname)

/-- The loop over `ports` (lines 526-543). -/
def portsLoop (results : List ListResultItem) : List Nat → List ListResultItem
  | [] => results
  | port :: rest =>
    if !bFound results (comNameOf port) then portsLoop (results ++ [secondaryRecord port]) rest
    else portsLoop results rest

/-- Answer of `CEnumerateSerial::UsingQueryDosDevice(ports)`: its return value and the
port numbers it left in `ports`. -/
structure QueryDosDevice where
  succeeded : Bool
  ports : List Nat
  deriving DecidableEq

/-- Function `EIO_List`: the value of `data->results` at the end, starting from `results`;
`none` when the WMI loop does not get through. -/
def EIO_List (results : List ListResultItem) (colDevices : List PnPEntity)
    (dos : QueryDosDevice) : Option (List ListResultItem) :=
  match wmiLoop results colDevices with
  | none => none
  | some results => some (if dos.succeeded then portsLoop results dos.ports else results)

/-- The record a row pushes, if it pushes one. -/
def RowOutcome.pushedItem : RowOutcome → Option ListResultItem
  | .pushed resultItem => some resultItem
  | _ => none

/-! ## Notions and concrete inputs used in the statements below -/

/-- A turn of the read loop whose read completes with zero bytes, either at once
(`ReadFile` returns `TRUE`) or through `GetOverlappedResult` after `ERROR_IO_PENDING`. -/
def IoAttempt.completesWithZero (io : IoAttempt) : Bool :=
  match io.start with
  | .ok n => n == 0
  | .failed e =>
    e == ERROR_IO_PENDING &&
      (match io.overlapped with
       | .ok n => n == 0
       | .failed _ => false)

/-- Value of a decimal digit character. -/
def digitValue (c : Char) : Nat := c.toNat - 48

/-- Reads a decimal numeral, most significant digit first. -/
def readDecimal (s : List Char) : Nat := s.foldl (fun acc c => 10 * acc + digitValue c) 0

/-- The port numbers of a list that `EIO_List` gives a record of their own: those whose
name `COM<n>` no record of `primary` bears (ignoring case), each at its first occurrence.
`seen` holds the numbers already given a record. -/
def freshPorts (primary : List ListResultItem) (seen : List Nat) : List Nat → List Nat
  | [] => []
  | n :: rest =>
    if bFound primary (comNameOf n) || seen.contains n then freshPorts primary seen rest
    else n :: freshPorts primary (seen ++ [n]) rest

/-- Decoder of the parity code of a `DCB`, following the table
NONE/NOPARITY, ODD/ODDPARITY, EVEN/EVENPARITY, MARK/MARKPARITY, SPACE/SPACEPARITY.
The Windows backend has no configuration query; the decoder only states the round
trip. -/
def decodeParity (code : Nat) : Option SerialPortParity :=
  if code = NOPARITY then some .SERIALPORT_PARITY_NONE
  else if code = ODDPARITY then some .SERIALPORT_PARITY_ODD
  else if code = EVENPARITY then some .SERIALPORT_PARITY_EVEN
  else if code = MARKPARITY then some .SERIALPORT_PARITY_MARK
  else if code = SPACEPARITY then some .SERIALPORT_PARITY_SPACE
  else none

/-- Decoder of the stop-bit code of a `DCB`, following the table
ONE/ONESTOPBIT, ONE_FIVE/ONE5STOPBITS, TWO/TWOSTOPBITS. -/
def decodeStopBits (code : Nat) : Option SerialPortStopBits :=
  if code = ONESTOPBIT then some .SERIALPORT_STOPBITS_ONE
  else if code = ONE5STOPBITS then some .SERIALPORT_STOPBITS_ONE_FIVE
  else if code = TWOSTOPBITS then some .SERIALPORT_STOPBITS_TWO
  else none

/-- A `DCB` as `GetCommState` may return it for a port left at 1200 baud, 7 data bits,
even parity, two stop bits, with flow control on. -/
def sampleDCB : DCB :=
  { DCBlength := 28, BaudRate := 1200, fBinary := false, fParity := true,
    fOutxCtsFlow := true, fOutxDsrFlow := true, fDtrControl := 2, fDsrSensitivity := false,
    fOutX := true, fInX := true, fRtsControl := 0, ByteSize := 7, Parity := 2, StopBits := 2 }

/-- An operating system on which every call of `EIO_Open` succeeds; the handle is 260. -/
def sampleOpenEnv : OpenEnv :=
  { createFile := .ok 260, getCommState := .ok sampleDCB, setCommState := .ok (),
    setCommTimeouts := .ok () }

/-- An open request for `COM3` at 9600 baud, 8 data bits, no parity, one stop bit. -/
def sampleOpenBaton (hupcl : Bool) : OpenBaton :=
  { path := "COM3".toList, lock := true, hupcl := hupcl, bufferSize := 65536,
    baudRate := 9600, dataBits := 8, parity := .SERIALPORT_PARITY_NONE,
    stopBits := .SERIALPORT_STOPBITS_ONE, errorString := [], result := 0 }

end SerialportWin

/-! # Theorems -/

namespace SerialportWin

/-! ## `EIO_Open` -/

theorem setCommStateArg_EIO_Open (env : OpenEnv) (bufferSize : Int) (data : OpenBaton)
    (file : Int) (dcb0 : DCB) (hc : env.createFile = .ok file)
    (hg : env.getCommState = .ok dcb0) :
    setCommStateArg (EIO_Open env bufferSize data).calls = some (configureDCB data dcb0) := by
  unfold EIO_Open
  simp only [hc, hg]
  cases env.setCommState <;> cases env.setCommTimeouts <;> simp [setCommStateArg]

theorem setCommStateArg_EIO_Open_some (env : OpenEnv) (bufferSize : Int) (data : OpenBaton)
    (dcb : DCB) (h : setCommStateArg (EIO_Open env bufferSize data).calls = some dcb) :
    ∃ dcb0, env.getCommState = .ok dcb0 ∧ dcb = configureDCB data dcb0 := by
  unfold EIO_Open at h
  cases hc : env.createFile with
  | failed e => simp [hc, setCommStateArg] at h
  | ok file =>
    cases hg : env.getCommState with
    | failed e => simp [hc, hg, setCommStateArg] at h
    | ok dcb0 =>
      refine ⟨dcb0, rfl, ?_⟩
      simp only [hc, hg] at h
      cases hs : env.setCommState <;> cases ht : env.setCommTimeouts <;>
        simp [hs, ht, setCommStateArg] at h <;> exact h.symm

/-- C2 (counterexample): an open request that does not ask for hang-up-on-close reaches
`SetCommState` with DTR disabled, where the claim has it enabled. -/
theorem EIO_Open_dtr_counterexample :
    (sampleOpenBaton false).hupcl = false ∧
    (setCommStateArg (EIO_Open sampleOpenEnv 0 (sampleOpenBaton false)).calls).map
      (fun dcb => dcb.fDtrControl) = some DTR_CONTROL_DISABLE ∧
    DTR_CONTROL_DISABLE ≠ DTR_CONTROL_ENABLE := by
  decide

/-- C2 (amended): whenever `EIO_Open` reaches `SetCommState`, which it does as soon as
`CreateFile` and `GetCommState` succeed, the configuration it passes has DTR enabled
exactly when hang-up-on-close is requested and DTR disabled exactly when it is not. -/
theorem EIO_Open_dtr (env : OpenEnv) (bufferSize : Int) (data : OpenBaton) :
    (∀ file dcb0, env.createFile = .ok file → env.getCommState = .ok dcb0 →
      (setCommStateArg (EIO_Open env bufferSize data).calls).isSome = true) ∧
    (∀ dcb, setCommStateArg (EIO_Open env bufferSize data).calls = some dcb →
      (dcb.fDtrControl = DTR_CONTROL_ENABLE ↔ data.hupcl = true) ∧
      (dcb.fDtrControl = DTR_CONTROL_DISABLE ↔ data.hupcl = false)) := by
  refine ⟨fun file dcb0 hc hg => ?_, fun dcb h => ?_⟩
  · rw [setCommStateArg_EIO_Open env bufferSize data file dcb0 hc hg]; rfl
  · obtain ⟨dcb0, _, rfl⟩ := setCommStateArg_EIO_Open_some env bufferSize data dcb h
    cases hh : data.hupcl <;>
      simp [configureDCB, hh, DTR_CONTROL_ENABLE, DTR_CONTROL_DISABLE]

/-- C2 (amended), applied to the two sample requests. -/
theorem EIO_Open_dtr_witness :
    (setCommStateArg (EIO_Open sampleOpenEnv 0 (sampleOpenBaton true)).calls).isSome = true ∧
    ((configureDCB (sampleOpenBaton true) sampleDCB).fDtrControl = DTR_CONTROL_ENABLE ↔
      (sampleOpenBaton true).hupcl = true) :=
  ⟨(EIO_Open_dtr sampleOpenEnv 0 (sampleOpenBaton true)).1 260 sampleDCB rfl rfl,
   ((EIO_Open_dtr sampleOpenEnv 0 (sampleOpenBaton true)).2 _ (by decide)).1⟩

/-- C7: for a valid link configuration (positive baud rate, 5 to 8 data bits, any of the
five parities and three stop-bit settings), once `CreateFile` and `GetCommState` have
succeeded the configuration passed to `SetCommState` carries the requested baud rate and
data bits, the parity and stop-bit codes of the stated table, and decodes back to the
four requested values. -/
theorem EIO_Open_roundtrip (env : OpenEnv) (bufferSize : Int) (data : OpenBaton)
    (file : Int) (dcb0 : DCB) (hc : env.createFile = .ok file)
    (hg : env.getCommState = .ok dcb0) (_hbaud : 0 < data.baudRate)
    (hbits : 5 ≤ data.dataBits ∧ data.dataBits ≤ 8) :
    ∃ dcb, setCommStateArg (EIO_Open env bufferSize data).calls = some dcb ∧
      dcb.BaudRate = data.baudRate ∧ dcb.ByteSize = data.dataBits ∧
      (data.parity = .SERIALPORT_PARITY_NONE → dcb.Parity = NOPARITY) ∧
      (data.parity = .SERIALPORT_PARITY_ODD → dcb.Parity = ODDPARITY) ∧
      (data.parity = .SERIALPORT_PARITY_EVEN → dcb.Parity = EVENPARITY) ∧
      (data.parity = .SERIALPORT_PARITY_MARK → dcb.Parity = MARKPARITY) ∧
      (data.parity = .SERIALPORT_PARITY_SPACE → dcb.Parity = SPACEPARITY) ∧
      (data.stopBits = .SERIALPORT_STOPBITS_ONE → dcb.StopBits = ONESTOPBIT) ∧
      (data.stopBits = .SERIALPORT_STOPBITS_ONE_FIVE → dcb.StopBits = ONE5STOPBITS) ∧
      (data.stopBits = .SERIALPORT_STOPBITS_TWO → dcb.StopBits = TWOSTOPBITS) ∧
      decodeParity dcb.Parity = some data.parity ∧
      decodeStopBits dcb.StopBits = some data.stopBits := by
  refine ⟨configureDCB data dcb0, setCommStateArg_EIO_Open env bufferSize data file dcb0 hc hg,
    ?_⟩
  have hmod : data.dataBits % 256 = data.dataBits := Nat.mod_eq_of_lt (by omega)
  refine ⟨rfl, hmod, ?_⟩
  cases hp : data.parity <;> cases hs : data.stopBits <;>
    simp [configureDCB, hp, hs, parityCode, stopBitsCode, decodeParity, decodeStopBits,
      NOPARITY, ODDPARITY, EVENPARITY, MARKPARITY, SPACEPARITY, ONESTOPBIT, ONE5STOPBITS,
      TWOSTOPBITS]

/-- C7, applied to the sample request (9600 baud, 8 data bits, no parity, one stop bit). -/
theorem EIO_Open_roundtrip_witness :
    ∃ dcb, setCommStateArg (EIO_Open sampleOpenEnv 0 (sampleOpenBaton false)).calls = some dcb ∧
      dcb.BaudRate = 9600 ∧ dcb.ByteSize = 8 ∧
      decodeParity dcb.Parity = some .SERIALPORT_PARITY_NONE ∧
      decodeStopBits dcb.StopBits = some .SERIALPORT_STOPBITS_ONE := by
  obtain ⟨dcb, h, hb, hs, _, _, _, _, _, _, _, _, hp, hst⟩ :=
    EIO_Open_roundtrip sampleOpenEnv 0 (sampleOpenBaton false) 260 sampleDCB rfl rfl
      (by decide) (by decide)
  exact ⟨dcb, h, hb, hs, hp, hst⟩

/-! ## The read loop -/

theorem ErrorCodeToString_ne_nil (pfx : List Char) (errorCode : Int) (h : pfx ≠ []) :
    ErrorCodeToString pfx errorCode ≠ [] := by
  obtain ⟨c, t, rfl⟩ := List.exists_cons_of_ne_nil h
  unfold ErrorCodeToString
  split_ifs <;> simp [truncateTo, ERROR_STRING_SIZE]

theorem isClosingHandleFrom_eq (g : List Int) (fd : Int) (it : List Int) :
    isClosingHandleFrom g fd it =
      if fd ∈ it then (true, g.filter (fun y => y ≠ fd)) else (false, g) := by
  induction it with
  | nil => simp [isClosingHandleFrom]
  | cons x it ih =>
    unfold isClosingHandleFrom
    by_cases hx : fd = x
    · simp [hx]
    · simp [hx, ih]

theorem IsClosingHandle_eq (g : List Int) (fd : Int) :
    IsClosingHandle g fd = if fd ∈ g then (true, g.filter (fun y => y ≠ fd)) else (false, g) :=
  isClosingHandleFrom_eq g fd g

/-- What a returning `watchLoop` leaves in the baton, when it starts with `bytesRead == 0`
and `disconnected == false`: data, a recorded error, or a disconnect. -/
theorem watchLoop_returns (script : List IoAttempt) :
    ∀ (data d : WatchPortBaton), data.bytesRead = 0 → data.disconnected = false →
      watchLoop data script = some d →
      d.fd = data.fd ∧
      ((0 < d.bytesRead ∧ d.disconnected = false ∧ d.errorString = data.errorString) ∨
       (d.bytesRead = 0 ∧ d.disconnected = false ∧ d.errorString ≠ [] ∧
          d.errorCode ≠ ERROR_OPERATION_ABORTED ∧
          ((d.errorCode ≠ ERROR_IO_PENDING ∧ d.errorString =
              ErrorCodeToString "Reading from COM port (ReadFile)".toList
                (dwordToInt d.errorCode)) ∨
            d.errorString =
              ErrorCodeToString "Reading from COM port (GetOverlappedResult)".toList
                (dwordToInt d.errorCode))) ∨
       (d.bytesRead = 0 ∧ d.disconnected = true ∧ d.errorCode = ERROR_OPERATION_ABORTED)) := by
  induction script with
  | nil => intro data d _ _ h; simp [watchLoop] at h
  | cons io rest ih =>
    intro data d hb hd h
    unfold watchLoop at h
    cases hs : io.start with
    | ok n =>
      simp only [hs] at h
      by_cases hn : 0 < n
      · simp [hn] at h
        subst h
        simp [hn, hd]
      · have hn0 : n = 0 := by omega
        subst hn0
        simp at h
        have := ih { data with bytesRead := 0 } d rfl hd h
        simpa using this
    | failed e =>
      simp only [hs] at h
      by_cases hp : e = ERROR_IO_PENDING
      · simp only [hp, ne_eq, not_true_eq_false, if_false] at h
        cases ho : io.overlapped with
        | ok n =>
          simp only [ho] at h
          by_cases hn : 0 < n
          · simp [hn] at h
            subst h
            simp [hn, hd]
          · have hn0 : n = 0 := by omega
            subst hn0
            simp at h
            have := ih { data with errorCode := ERROR_IO_PENDING, bytesRead := 0 } d rfl hd h
            simpa using this
        | failed e2 =>
          simp only [ho] at h
          by_cases ha : e2 = ERROR_OPERATION_ABORTED
          · simp [ha] at h
            subst h
            simp [hb]
          · simp [ha] at h
            subst h
            simp [hb, hd, ha]
            exact ErrorCodeToString_ne_nil _ _ (by decide)
      · simp only [ne_eq, hp, not_false_eq_true, if_true] at h
        by_cases ha : e = ERROR_OPERATION_ABORTED
        · simp [ha] at h
          subst h
          simp [hb]
        · simp [ha] at h
          subst h
          simp [hb, hd, ha, hp]
          exact ErrorCodeToString_ne_nil _ _ (by decide)

theorem watchLoop_zero (data : WatchPortBaton) (io : IoAttempt) (rest : List IoAttempt)
    (hb : data.bytesRead = 0) (hz : io.completesWithZero = true) :
    ∃ code, watchLoop data (io :: rest) = watchLoop { data with errorCode := code } rest := by
  obtain ⟨fd, bytesRead, errorString, errorCode, disconnected⟩ := data
  simp only at hb
  subst hb
  unfold IoAttempt.completesWithZero at hz
  cases hs : io.start with
  | ok n =>
    simp [hs] at hz
    subst hz
    exact ⟨errorCode, by simp [watchLoop, hs]⟩
  | failed e =>
    cases ho : io.overlapped with
    | ok n =>
      simp [hs, ho] at hz
      obtain ⟨he, hn⟩ := hz
      subst he hn
      exact ⟨ERROR_IO_PENDING, by simp [watchLoop, hs, ho]⟩
    | failed e2 => simp [hs, ho] at hz

theorem watchLoop_errorCode_irrelevant (g : List Int) (u : Bool) (rest : List IoAttempt) :
    ∀ (data : WatchPortBaton) (code : Nat), data.disconnected = false →
      (watchLoop { data with errorCode := code } rest).map (EIO_AfterWatchPort g u) =
        (watchLoop data rest).map (EIO_AfterWatchPort g u) := by
  induction rest with
  | nil => intro data code _; simp [watchLoop]
  | cons io rest ih =>
    intro data code hd
    cases hs : io.start with
    | failed e => simp [watchLoop, hs]
    | ok n =>
      by_cases hn : 0 < n
      · simp [watchLoop, hs, hn, EIO_AfterWatchPort, hd]
      · have hn0 : n = 0 := by omega
        subst hn0
        simpa [watchLoop, hs] using ih { data with bytesRead := 0 } code hd

theorem EIO_WatchPort_zeros_transparent (g : List Int) (u : Bool)
    (rest zeros : List IoAttempt) :
    ∀ (data : WatchPortBaton), data.bytesRead = 0 → data.disconnected = false →
      (∀ io ∈ zeros, io.completesWithZero = true) →
      (watchLoop data (zeros ++ rest)).map (EIO_AfterWatchPort g u) =
        (watchLoop data rest).map (EIO_AfterWatchPort g u) := by
  induction zeros with
  | nil => intro data _ _ _; rfl
  | cons io zeros ih =>
    intro data hb hd hz
    obtain ⟨code, hcode⟩ :=
      watchLoop_zero data io (zeros ++ rest) hb (hz io (List.mem_cons_self _ _))
    rw [List.cons_append, hcode,
      ih { data with errorCode := code } hb hd (fun x hx => hz x (List.mem_cons_of_mem _ hx))]
    exact watchLoop_errorCode_irrelevant g u rest data code hd

theorem EIO_AfterWatchPort_dataCallback (g : List Int) (u : Bool) (d : WatchPortBaton)
    (n : Nat)
    (h : WatchAction.dataCallback n ∈ (EIO_AfterWatchPort g u d).actions) :
    0 < n ∧ n = d.bytesRead ∧ d.disconnected = false := by
  unfold EIO_AfterWatchPort at h
  rw [IsClosingHandle_eq] at h
  by_cases hd : d.disconnected = true
  · simp [hd] at h
  · by_cases hb : 0 < d.bytesRead
    · simp [hd, hb] at h
      subst h
      exact ⟨hb, rfl, by simpa using hd⟩
    · exfalso
      simp only [hd, hb] at h
      split_ifs at h <;> simp at h

/-- C5: zero-byte read completions are invisible.  For every baton and every script of
native answers: (1) turns that complete with zero bytes, at once or through
`GetOverlappedResult`, change nothing of what the iteration goes on to deliver;
(2) a script of such turns alone never makes `EIO_WatchPort` return; (3) when
`EIO_WatchPort` returns it has `bytesRead > 0`, or `bytesRead == 0` and the message of a
failed native call in `errorString` (a `ReadFile` failure other than `ERROR_IO_PENDING`,
or a `GetOverlappedResult` failure), or `disconnected` set; (4) `EIO_AfterWatchPort`
calls the data callback only with a positive byte count. -/
theorem EIO_WatchPort_zero_bytes (data : WatchPortBaton) (g : List Int) (u : Bool) :
    (∀ zeros rest, (∀ io ∈ zeros, io.completesWithZero = true) →
      (EIO_WatchPort data (zeros ++ rest)).map (EIO_AfterWatchPort g u) =
        (EIO_WatchPort data rest).map (EIO_AfterWatchPort g u)) ∧
    (∀ zeros, (∀ io ∈ zeros, io.completesWithZero = true) → EIO_WatchPort data zeros = none) ∧
    (∀ script d, EIO_WatchPort data script = some d →
      (0 < d.bytesRead ∧ d.disconnected = false) ∨
      (d.bytesRead = 0 ∧ d.disconnected = false ∧ d.errorString ≠ [] ∧
        ((d.errorCode ≠ ERROR_IO_PENDING ∧ d.errorString =
            ErrorCodeToString "Reading from COM port (ReadFile)".toList
              (dwordToInt d.errorCode)) ∨
          d.errorString =
            ErrorCodeToString "Reading from COM port (GetOverlappedResult)".toList
              (dwordToInt d.errorCode))) ∨
      (d.bytesRead = 0 ∧ d.disconnected = true)) ∧
    (∀ script d n, EIO_WatchPort data script = some d →
      WatchAction.dataCallback n ∈ (EIO_AfterWatchPort g u d).actions →
      0 < n ∧ n = d.bytesRead) := by
  have htrans : ∀ zeros rest, (∀ io ∈ zeros, io.completesWithZero = true) →
      (EIO_WatchPort data (zeros ++ rest)).map (EIO_AfterWatchPort g u) =
        (EIO_WatchPort data rest).map (EIO_AfterWatchPort g u) := fun zeros rest hz =>
    EIO_WatchPort_zeros_transparent g u rest zeros _ rfl rfl hz
  refine ⟨htrans, fun zeros hz => ?_, fun script d h => ?_, fun script d n h hn => ?_⟩
  · have h := htrans zeros [] hz
    rw [List.append_nil] at h
    simpa [EIO_WatchPort, watchLoop] using h
  · obtain ⟨_, h1 | h2 | h3⟩ := watchLoop_returns script _ d rfl rfl h
    · exact Or.inl ⟨h1.1, h1.2.1⟩
    · exact Or.inr (Or.inl ⟨h2.1, h2.2.1, h2.2.2.1, h2.2.2.2.2⟩)
    · exact Or.inr (Or.inr ⟨h3.1, h3.2.1⟩)
  · obtain ⟨h1, h2, _⟩ := EIO_AfterWatchPort_dataCallback g u d n hn
    exact ⟨h1, h2⟩

/-- C5, applied to a script of two zero-byte completions followed by a read of five
bytes: the iteration delivers exactly what the five-byte read alone delivers. -/
theorem EIO_WatchPort_zero_bytes_witness :
    (EIO_WatchPort (AfterOpenSuccess 7)
        ([⟨.ok 0, .ok 0⟩, ⟨.failed ERROR_IO_PENDING, .ok 0⟩] ++ [⟨.ok 5, .ok 0⟩])).map
        (EIO_AfterWatchPort [] false) =
      (EIO_WatchPort (AfterOpenSuccess 7) [⟨.ok 5, .ok 0⟩]).map (EIO_AfterWatchPort [] false) ∧
    (EIO_WatchPort (AfterOpenSuccess 7) [⟨.ok 5, .ok 0⟩]).map (EIO_AfterWatchPort [] false) =
      some ⟨[.dataCallback 5, .queueWatchPort (AfterOpenSuccess 7)], []⟩ :=
  ⟨(EIO_WatchPort_zero_bytes (AfterOpenSuccess 7) [] false).1
      [⟨.ok 0, .ok 0⟩, ⟨.failed ERROR_IO_PENDING, .ok 0⟩] [⟨.ok 5, .ok 0⟩] (by decide),
   by decide⟩

/-- C4: once `EIO_Close` has run for a handle, the handle is in `g_closingHandles`; if the
read iteration in flight on that handle then returns with `ERROR_INVALID_HANDLE` and zero
bytes, `EIO_AfterWatchPort`, run on any later value `g1` of `g_closingHandles` that still
holds the handle (in particular the value `EIO_Close` left), only disposes of the
callbacks and deletes the baton: it calls no callback (no error, data or disconnect
event), queues no further iteration, and erases the handle from `g_closingHandles`. -/
theorem EIO_AfterWatchPort_close_suppressed (g : List Int) (pCancelIoEx : Bool)
    (closeHandle : Native Unit) (req : VoidBaton) (baton d : WatchPortBaton)
    (script : List IoAttempt) (u : Bool) (hfd : baton.fd = req.fd)
    (hrun : EIO_WatchPort baton script = some d)
    (hcode : d.errorCode = ERROR_INVALID_HANDLE) (hbytes : d.bytesRead = 0) :
    req.fd ∈ (EIO_Close g pCancelIoEx closeHandle req).g_closingHandles ∧
    (∀ g1 : List Int, req.fd ∈ g1 →
      (EIO_AfterWatchPort g1 u d).actions = [.disposeWatchPortCallbacks, .deleteBaton] ∧
      (∀ a ∈ (EIO_AfterWatchPort g1 u d).actions, a.isCallback = false ∧ a.isQueue = false) ∧
      req.fd ∉ (EIO_AfterWatchPort g1 u d).g_closingHandles) := by
  have hmem : req.fd ∈ (EIO_Close g pCancelIoEx closeHandle req).g_closingHandles := by
    unfold EIO_Close
    cases closeHandle <;> simp
  obtain ⟨hdfd, hcases⟩ := watchLoop_returns script _ d rfl rfl hrun
  have hdisc : d.disconnected = false := by
    rcases hcases with h1 | h2 | h3
    · exact h1.2.1
    · exact h2.2.1
    · rw [hcode] at h3
      exact absurd h3.2.2 (by decide)
  have hdfd2 : d.fd = req.fd := by rw [hdfd]; exact hfd
  refine ⟨hmem, fun g1 hg1 => ?_⟩
  have hout : EIO_AfterWatchPort g1 u d =
      ⟨[.disposeWatchPortCallbacks, .deleteBaton], g1.filter (fun y => y ≠ req.fd)⟩ := by
    unfold EIO_AfterWatchPort
    rw [IsClosingHandle_eq, hdfd2]
    simp [hdisc, hbytes, hcode, hg1, ERROR_INVALID_HANDLE]
  rw [hout]
  refine ⟨rfl, ?_, by simp⟩
  intro a ha
  simp at ha
  rcases ha with rfl | rfl <;> exact ⟨rfl, rfl⟩

/-- C4, applied to handle 5: closed while its read was pending, the read then fails with
`ERROR_INVALID_HANDLE`. -/
theorem EIO_AfterWatchPort_close_suppressed_witness :
    (EIO_AfterWatchPort (EIO_Close [] true (.ok ()) ⟨5, []⟩).g_closingHandles false
      ⟨5, 0, ErrorCodeToString "Reading from COM port (GetOverlappedResult)".toList 6, 6,
        false⟩).actions = [.disposeWatchPortCallbacks, .deleteBaton] :=
  ((EIO_AfterWatchPort_close_suppressed [] true (.ok ()) ⟨5, []⟩ (AfterOpenSuccess 5)
    ⟨5, 0, ErrorCodeToString "Reading from COM port (GetOverlappedResult)".toList 6, 6, false⟩
    [⟨.failed ERROR_IO_PENDING, .failed ERROR_INVALID_HANDLE⟩] false rfl (by decide) rfl rfl).2
    _ (by decide)).1

theorem EIO_AfterWatchPort_cases (g : List Int) (u : Bool) (data : WatchPortBaton) :
    EIO_AfterWatchPort g u data =
      if data.disconnected = true then
        ⟨[.disconnectedCallback, .disposeWatchPortCallbacks] ++
          (if u = false then [.deleteBaton] else []), g⟩
      else if 0 < data.bytesRead then
        ⟨[.dataCallback data.bytesRead, .queueWatchPort (AfterOpenSuccess data.fd)], g⟩
      else if data.errorCode = 0 then
        ⟨[.queueWatchPort (AfterOpenSuccess data.fd), .deleteBaton], g⟩
      else if data.errorCode = ERROR_INVALID_HANDLE ∧ data.fd ∈ g then
        ⟨[.disposeWatchPortCallbacks, .deleteBaton], g.filter (fun y => y ≠ data.fd)⟩
      else
        ⟨[.errorCallback data.errorString, .sleep 100,
          .queueWatchPort (AfterOpenSuccess data.fd), .deleteBaton], g⟩ := by
  unfold EIO_AfterWatchPort
  rw [IsClosingHandle_eq]
  by_cases hd : data.disconnected = true
  · simp [hd]
  · by_cases hb : 0 < data.bytesRead
    · simp [hd, hb]
    · by_cases he : data.errorCode = 0
      · simp [hd, hb, he]
      · have he2 : 0 < data.errorCode := by omega
        by_cases hi : data.errorCode = ERROR_INVALID_HANDLE
        · by_cases hm : data.fd ∈ g <;> simp [hd, hb, he, hi, hm, ERROR_INVALID_HANDLE]
        · simp [hd, hb, he, he2, hi]

/-- C6: for every state in which a read iteration can end, `EIO_AfterWatchPort` queues
the next iteration if and only if the iteration was neither disconnected nor a suppressed
close-induced error (no data, `ERROR_INVALID_HANDLE`, handle in `g_closingHandles`); it
queues at most one, for the same handle; a disconnected iteration calls the disconnect
callback exactly once, no other callback, and queues nothing; every data or error
callback comes first and is followed by exactly one queued iteration. -/
theorem EIO_AfterWatchPort_continuation (g : List Int) (u : Bool) (data : WatchPortBaton) :
    ((∃ a ∈ (EIO_AfterWatchPort g u data).actions, a.isQueue = true) ↔
      ¬ data.disconnected = true ∧
      ¬ (data.disconnected = false ∧ data.bytesRead = 0 ∧
          data.errorCode = ERROR_INVALID_HANDLE ∧ data.fd ∈ g)) ∧
    ((EIO_AfterWatchPort g u data).actions.filter WatchAction.isQueue = [] ∨
      (EIO_AfterWatchPort g u data).actions.filter WatchAction.isQueue =
        [.queueWatchPort (AfterOpenSuccess data.fd)]) ∧
    (data.disconnected = true →
      (EIO_AfterWatchPort g u data).actions.filter WatchAction.isCallback =
        [.disconnectedCallback] ∧
      (EIO_AfterWatchPort g u data).actions.filter WatchAction.isQueue = []) ∧
    (∀ a ∈ (EIO_AfterWatchPort g u data).actions,
      ((∃ n, a = .dataCallback n) ∨ (∃ message, a = .errorCallback message)) →
      ∃ post, (EIO_AfterWatchPort g u data).actions = a :: post ∧
        post.filter WatchAction.isQueue = [.queueWatchPort (AfterOpenSuccess data.fd)]) := by
  by_cases hd : data.disconnected = true
  · rw [EIO_AfterWatchPort_cases, if_pos hd]
    simp [hd, WatchAction.isQueue, WatchAction.isCallback]
  · have hd2 : data.disconnected = false := by simpa using hd
    by_cases hb : 0 < data.bytesRead
    · have hb2 : data.bytesRead ≠ 0 := by omega
      rw [EIO_AfterWatchPort_cases, if_neg hd, if_pos hb]
      simp [hd2, hb2, WatchAction.isQueue, WatchAction.isCallback]
    · have hb2 : data.bytesRead = 0 := by omega
      by_cases he : data.errorCode = 0
      · have hne : ¬ data.errorCode = ERROR_INVALID_HANDLE := by
          rw [he]; decide
        rw [EIO_AfterWatchPort_cases, if_neg hd, if_neg hb, if_pos he]
        simp [hd2, hb2, hne, WatchAction.isQueue, WatchAction.isCallback]
      · by_cases hi : data.errorCode = ERROR_INVALID_HANDLE ∧ data.fd ∈ g
        · rw [EIO_AfterWatchPort_cases, if_neg hd, if_neg hb, if_neg he, if_pos hi]
          simp [hd2, hb2, hi.1, hi.2, WatchAction.isQueue, WatchAction.isCallback]
        · rw [EIO_AfterWatchPort_cases, if_neg hd, if_neg hb, if_neg he, if_neg hi]
          simp [hd2, hb2, WatchAction.isQueue, WatchAction.isCallback]
          tauto

/-- C10 (evaluation): handle 5 is closed while its read is pending and `CancelIoEx`
cancels the read.  `EIO_Close` has put 5 into `g_closingHandles`; the iteration ends
disconnected, `EIO_AfterWatchPort` calls the disconnect callback, queues nothing, and
5 is still in `g_closingHandles` when the read loop has ended. -/
theorem EIO_AfterWatchPort_abort_keeps_entry :
    (EIO_Close [] true (.ok ()) ⟨5, []⟩).g_closingHandles = [5] ∧
    (EIO_WatchPort (AfterOpenSuccess 5)
        [⟨.failed ERROR_IO_PENDING, .failed ERROR_OPERATION_ABORTED⟩]).map
      (EIO_AfterWatchPort (EIO_Close [] true (.ok ()) ⟨5, []⟩).g_closingHandles false) =
      some ⟨[.disconnectedCallback, .disposeWatchPortCallbacks, .deleteBaton], [5]⟩ ∧
    (EIO_WatchPort (AfterOpenSuccess 5)
        [⟨.failed ERROR_IO_PENDING, .failed ERROR_OPERATION_ABORTED⟩]).map
      (EIO_AfterWatchPort (EIO_Close [] true (.ok ()) ⟨5, []⟩).g_closingHandles true) =
      some ⟨[.disconnectedCallback, .disposeWatchPortCallbacks], [5]⟩ := by
  decide

/-- The sibling path of C10: a suppressed close-induced error erases the handle from
`g_closingHandles` and leaves every other entry as it was. -/
theorem EIO_AfterWatchPort_suppressed_removes (g : List Int) (u : Bool)
    (data : WatchPortBaton)
    (hd : data.disconnected = false) (hb : data.bytesRead = 0)
    (he : data.errorCode = ERROR_INVALID_HANDLE) (hm : data.fd ∈ g) :
    (EIO_AfterWatchPort g u data).g_closingHandles = g.filter (fun y => y ≠ data.fd) ∧
    data.fd ∉ (EIO_AfterWatchPort g u data).g_closingHandles := by
  rw [EIO_AfterWatchPort_cases]
  have hne : ¬ (ERROR_INVALID_HANDLE = 0) := by decide
  simp [hd, hb, he, hm, hne]

/-! ## `EIO_Write` -/

theorem subWrite_error_ne_nil (io : IoAttempt) (message : List Char)
    (h : subWrite io = .error message) : message ≠ [] := by
  unfold subWrite at h
  cases hs : io.start with
  | ok n => simp [hs] at h
  | failed e =>
    simp only [hs] at h
    by_cases hp : e = ERROR_IO_PENDING
    · simp only [hp, ne_eq, not_true_eq_false, if_false] at h
      cases ho : io.overlapped with
      | ok n => simp [ho] at h
      | failed e2 =>
        simp only [ho, Except.error.injEq] at h
        rw [← h]
        exact ErrorCodeToString_ne_nil _ _ (by decide)
    · simp only [ne_eq, hp, not_false_eq_true, if_true, Except.error.injEq] at h
      rw [← h]
      exact ErrorCodeToString_ne_nil _ _ (by decide)

theorem bytesOf_of_ok (io : IoAttempt) (n : Nat) (h : subWrite io = .ok n) : bytesOf io = n := by
  simp [bytesOf, h]

theorem dwordToInt_of_lt (n : Nat) (h : n < 2 ^ 31) : dwordToInt n = (n : Int) := by
  unfold dwordToInt
  have hm : n % 2 ^ 32 = n := Nat.mod_eq_of_lt (by omega)
  rw [hm, if_pos h]

theorem sizeAdd_of_lt (offset n : Nat) (h : offset + n < 2 ^ 64) :
    sizeAdd offset (n : Int) = offset + n := by
  unfold sizeAdd
  omega

/-- The loop of `EIO_Write` returns when the payload is shorter than `2 ^ 31` bytes, every
completed sub-write reports at least one byte and at most the payload length, and the
script is long enough to cover the bytes still missing. -/
theorem writeLoop_completes (script : List IoAttempt) :
    ∀ (data : WriteBaton) (calls : List WriteFileCall), script ≠ [] →
      data.bufferLength < 2 ^ 31 → data.offset < 2 ^ 31 →
      data.bufferLength - data.offset ≤ script.length →
      (∀ io ∈ script, subWrite io ≠ .ok 0) →
      (∀ io ∈ script, bytesOf io ≤ data.bufferLength) →
      ∃ out, writeLoop data calls script = some out ∧
        out.data.bufferLength = data.bufferLength ∧
        (out.data.errorString ≠ [] ∨
          (out.data.errorString = data.errorString ∧
            out.data.bufferLength ≤ out.data.offset ∧
            ∃ k last n, out.calls.length = calls.length + (k + 1) ∧ script[k]? = some last ∧
              subWrite last = .ok n ∧ out.data.result = (n : Int) ∧
              out.data.offset = data.offset + ((script.take (k + 1)).map bytesOf).sum)) := by
  induction script with
  | nil => intro data calls h; exact absurd rfl h
  | cons io rest ih =>
    intro data calls _ hL hoff hrem hpos hle
    unfold writeLoop
    cases hs : subWrite io with
    | error message =>
      exact ⟨_, rfl, rfl, Or.inl (subWrite_error_ne_nil io message hs)⟩
    | ok n =>
      have hn : 0 < n := by
        rcases Nat.eq_zero_or_pos n with h0 | h0
        · rw [h0] at hs
          exact absurd hs (hpos io (List.mem_cons_self _ _))
        · exact h0
      have hnL : n ≤ data.bufferLength := by
        have := hle io (List.mem_cons_self _ _)
        rwa [bytesOf_of_ok io n hs] at this
      have hres : dwordToInt n = (n : Int) := dwordToInt_of_lt n (by omega)
      have hadd : sizeAdd data.offset (n : Int) = data.offset + n :=
        sizeAdd_of_lt _ _ (by omega)
      simp only [hres, hadd]
      by_cases hmore : data.bufferLength > data.offset + n
      · rw [if_pos hmore]
        have hlen : data.bufferLength - (data.offset + n) ≤ rest.length := by
          simp only [List.length_cons] at hrem
          omega
        have hne : rest ≠ [] := by
          intro h
          rw [h] at hlen
          simp at hlen
          omega
        obtain ⟨out, hout, hbl, hres⟩ := ih
          { data with result := (n : Int), offset := data.offset + n }
          (calls ++ [{ bufferStart := 0, nNumberOfBytesToWrite := data.bufferLength % 2 ^ 32 }])
          hne hL (by simp only; omega) hlen
          (fun x hx => hpos x (List.mem_cons_of_mem _ hx))
          (fun x hx => hle x (List.mem_cons_of_mem _ hx))
        refine ⟨out, hout, hbl, ?_⟩
        rcases hres with herr | ⟨he, hfin, k, last, m, hk, hget, hlast, hr, hsum⟩
        · exact Or.inl herr
        · refine Or.inr ⟨he, hfin, k + 1, last, m, ?_, ?_, hlast, hr, ?_⟩
          · simp only [List.length_append, List.length_singleton] at hk
            omega
          · simpa using hget
          · simp only [List.take_succ_cons, List.map_cons, List.sum_cons, bytesOf_of_ok io n hs]
            simp only at hsum
            omega
      · rw [if_neg hmore]
        refine ⟨_, rfl, rfl, Or.inr ⟨rfl, ?_, 0, io, n, ?_, ?_, ?_, rfl, ?_⟩⟩
        · simp only
          omega
        · simp
        · simp
        · exact hs
        · simp [bytesOf_of_ok io n hs]

/-- C1 (counterexample): a payload of 4 bytes whose first sub-write reports 2 bytes and
whose second reports 2 bytes finishes without an error and with `data->result == 2`. -/
theorem EIO_Write_result_counterexample :
    (EIO_Write ⟨1, 4, 0, 0, []⟩ [⟨.ok 2, .ok 0⟩, ⟨.ok 2, .ok 0⟩]).map
      (fun out => (out.data.errorString, out.data.result, out.data.offset)) =
      some ([], 2, 4) ∧ (2 : Int) < 4 := by
  decide

/-- C1 (amended): for a payload of `L` bytes, `0 < L < 2 ^ 31`, with offset 0 and no error
recorded, and a script of at least `L` native answers in which every sub-write fails or
reports at least one byte and at most `L` bytes, `EIO_Write` returns, and either it has
recorded an error or it finishes with no error, an offset of at least `L` that is the sum
of the reported counts, and `data->result` equal to the count reported by the last
sub-write issued; when the first sub-write reports `L` bytes, `data->result` is `L`. -/
theorem EIO_Write_completes (data : WriteBaton) (script : List IoAttempt)
    (hoff : data.offset = 0) (herr : data.errorString = []) (hL : 0 < data.bufferLength)
    (hmax : data.bufferLength < 2 ^ 31) (hlen : data.bufferLength ≤ script.length)
    (hpos : ∀ io ∈ script, subWrite io ≠ .ok 0)
    (hle : ∀ io ∈ script, bytesOf io ≤ data.bufferLength) :
    ∃ out, EIO_Write data script = some out ∧
      (out.data.errorString ≠ [] ∨
        (out.data.errorString = [] ∧ data.bufferLength ≤ out.data.offset ∧
          ∃ k last n, out.calls.length = k + 1 ∧ script[k]? = some last ∧
            subWrite last = .ok n ∧ out.data.result = (n : Int) ∧
            out.data.offset = ((script.take (k + 1)).map bytesOf).sum)) ∧
      (∀ first, script.head? = some first → subWrite first = .ok data.bufferLength →
        out.data.errorString = [] ∧ out.data.result = (data.bufferLength : Int)) := by
  have hne : script ≠ [] := by
    intro h
    rw [h] at hlen
    simp at hlen
    omega
  obtain ⟨out, hout, hbl, hres⟩ := writeLoop_completes script { data with result := 0 } [] hne
    hmax (by simp only; omega) (by simp only; omega) hpos hle
  refine ⟨out, hout, ?_, ?_⟩
  · rcases hres with h | ⟨he, hfin, k, last, n, hk, hget, hlast, hr, hsum⟩
    · exact Or.inl h
    · refine Or.inr ⟨by rw [he]; exact herr, ?_, k, last, n, by simpa using hk, hget, hlast,
        hr, ?_⟩
      · simp only at hbl
        omega
      · simp only at hsum
        omega
  · intro first hfirst hfull
    cases script with
    | nil => simp at hfirst
    | cons io rest =>
      simp only [List.head?_cons, Option.some.injEq] at hfirst
      subst hfirst
      have hres2 : dwordToInt data.bufferLength = (data.bufferLength : Int) :=
        dwordToInt_of_lt _ hmax
      have hadd : sizeAdd 0 (data.bufferLength : Int) = data.bufferLength := by
        rw [sizeAdd_of_lt _ _ (by omega)]
        omega
      simp [EIO_Write, writeLoop, hfull, hoff, hres2, hadd] at hout
      subst hout
      exact ⟨herr, rfl⟩

/-- C1 (amended), applied to a payload of 4 bytes written in sub-writes of 1 and 3 bytes. -/
theorem EIO_Write_completes_witness :
    ∃ out, EIO_Write ⟨1, 4, 0, 0, []⟩
        [⟨.ok 1, .ok 0⟩, ⟨.failed ERROR_IO_PENDING, .ok 3⟩, ⟨.ok 1, .ok 0⟩, ⟨.ok 1, .ok 0⟩] =
        some out ∧
      (out.data.errorString ≠ [] ∨ (out.data.errorString = [] ∧ 4 ≤ out.data.offset)) := by
  obtain ⟨out, h, hres, _⟩ := EIO_Write_completes ⟨1, 4, 0, 0, []⟩
    [⟨.ok 1, .ok 0⟩, ⟨.failed ERROR_IO_PENDING, .ok 3⟩, ⟨.ok 1, .ok 0⟩, ⟨.ok 1, .ok 0⟩]
    rfl rfl (by decide) (by decide) (by decide) (by simp [subWrite])
    (by simp [bytesOf, subWrite])
  refine ⟨out, h, ?_⟩
  rcases hres with h1 | ⟨h1, h2, _⟩
  · exact Or.inl h1
  · exact Or.inr ⟨h1, h2⟩

/-- C9 (evaluation): a payload of 4 bytes at offset 0.  After a first sub-write of
2 bytes the second `WriteFile` is again given the buffer from its start with length 4,
not the unsent bytes 2..3; and when that second sub-write reports 4 bytes, no more than it
was asked for, the offset ends at 6, above the payload length. -/
theorem EIO_Write_rewrites_whole_buffer :
    (EIO_Write ⟨1, 4, 0, 0, []⟩ [⟨.ok 2, .ok 0⟩, ⟨.ok 2, .ok 0⟩]).map (fun out => out.calls) =
      some [⟨0, 4⟩, ⟨0, 4⟩] ∧
    (EIO_Write ⟨1, 4, 0, 0, []⟩ [⟨.ok 2, .ok 0⟩, ⟨.ok 4, .ok 0⟩]).map
      (fun out => (out.calls, out.data.offset, out.data.errorString)) =
      some ([⟨0, 4⟩, ⟨0, 4⟩], 6, []) ∧
    (4 : Nat) < 6 := by
  decide

/-- Evaluation beyond the `int` range: when a sub-write on a payload of 5 bytes reports
`4294967295` bytes, `data->result` is `-1` and `data->offset` wraps to `2 ^ 64 - 1`. -/
theorem EIO_Write_wraps :
    (EIO_Write ⟨1, 5, 0, 0, []⟩ [⟨.ok 4294967295, .ok 0⟩]).map
      (fun out => (out.data.result, out.data.offset)) =
      some (-1, 18446744073709551615) := by
  decide

/-! ## `EIO_List` -/

theorem digitValue_toLower_digitChar (k : Nat) (hk : k < 10) :
    digitValue (Nat.digitChar k).toLower = k := by
  interval_cases k <;> rfl

theorem readDecimal_toDigitsCore (fuel : Nat) :
    ∀ (n : Nat) (ds : List Char), n < fuel →
      (List.map Char.toLower (Nat.toDigitsCore 10 fuel n ds)).foldl
          (fun acc c => 10 * acc + digitValue c) 0 =
        (List.map Char.toLower ds).foldl (fun acc c => 10 * acc + digitValue c) n := by
  induction fuel with
  | zero => intro n ds h; omega
  | succ fuel ih =>
    intro n ds hn
    unfold Nat.toDigitsCore
    have hd : digitValue (Nat.digitChar (n % 10)).toLower = n % 10 :=
      digitValue_toLower_digitChar _ (Nat.mod_lt _ (by decide))
    by_cases h0 : n / 10 = 0
    · simp only [h0, if_true, List.map_cons, List.foldl_cons, hd]
      congr 1
      omega
    · simp only [h0, if_false]
      rw [ih (n / 10) _ (by omega)]
      simp only [List.map_cons, List.foldl_cons, hd]
      congr 1
      omega

theorem readDecimal_toDigits (n : Nat) :
    readDecimal (List.map Char.toLower (Nat.toDigits 10 n)) = n := by
  unfold readDecimal Nat.toDigits
  rw [readDecimal_toDigitsCore (n + 1) n [] (by omega)]
  rfl

theorem stricmpIsZero_comNameOf (m n : Nat) :
    stricmpIsZero (comNameOf m) (comNameOf n) = true ↔ m = n := by
  constructor
  · intro h
    simp only [stricmpIsZero, comNameOf, List.map_append, beq_iff_eq] at h
    have h2 := List.append_cancel_left h
    have h3 := congrArg readDecimal h2
    rwa [readDecimal_toDigits, readDecimal_toDigits] at h3
  · rintro rfl
    simp [stricmpIsZero]

theorem bFound_append (a b : List ListResultItem) (name : List Char) :
    bFound (a ++ b) name = (bFound a name || bFound b name) := by
  simp [bFound, List.any_append]

theorem bFound_secondary (seen : List Nat) (n : Nat) :
    bFound (seen.map secondaryRecord) (comNameOf n) = seen.contains n := by
  induction seen with
  | nil => simp [bFound]
  | cons m seen ih =>
    simp only [bFound, List.map_cons, List.any_cons] at ih ⊢
    rw [ih]
    by_cases hmn : m = n
    · subst hmn
      simp [secondaryRecord, (stricmpIsZero_comNameOf m m).2 rfl]
    · have hne : stricmpIsZero (comNameOf m) (comNameOf n) = false := by
        rw [Bool.eq_false_iff]
        exact fun h => hmn ((stricmpIsZero_comNameOf m n).1 h)
      have hnm : ¬ n = m := fun h => hmn h.symm
      simp [secondaryRecord, hne, hnm]

theorem portsLoop_eq (primary : List ListResultItem) (ports : List Nat) :
    ∀ seen : List Nat,
      portsLoop (primary ++ seen.map secondaryRecord) ports =
        primary ++ seen.map secondaryRecord ++
          (freshPorts primary seen ports).map secondaryRecord := by
  induction ports with
  | nil => intro seen; simp [portsLoop, freshPorts]
  | cons n rest ih =>
    intro seen
    unfold portsLoop freshPorts
    rw [bFound_append, bFound_secondary]
    by_cases hf : (bFound primary (comNameOf n) || seen.contains n) = true
    · simp only [hf, Bool.not_true, if_true]
      rw [if_neg (by simp)]
      exact ih seen
    · have hf2 : (bFound primary (comNameOf n) || seen.contains n) = false := by
        simpa using hf
      simp only [hf2, Bool.not_false, if_true]
      rw [if_neg (by simp)]
      have := ih (seen ++ [n])
      simp only [List.map_append, List.map_cons, List.map_nil, List.append_assoc] at this ⊢
      rw [this]
      simp

theorem freshPorts_sublist (primary : List ListResultItem) (ports : List Nat) :
    ∀ seen, (freshPorts primary seen ports).Sublist ports := by
  induction ports with
  | nil => intro seen; simp [freshPorts]
  | cons n rest ih =>
    intro seen
    unfold freshPorts
    split_ifs
    · exact (ih seen).cons n
    · exact (ih _).cons₂ n

theorem freshPorts_mem (primary : List ListResultItem) (ports : List Nat) :
    ∀ seen n, n ∈ freshPorts primary seen ports ↔
      n ∈ ports ∧ n ∉ seen ∧ bFound primary (comNameOf n) = false := by
  induction ports with
  | nil => intro seen n; simp [freshPorts]
  | cons p rest ih =>
    intro seen n
    unfold freshPorts
    by_cases hf : (bFound primary (comNameOf p) || seen.contains p) = true
    · rw [if_pos hf, ih]
      constructor
      · rintro ⟨h1, h2, h3⟩
        exact ⟨List.mem_cons_of_mem _ h1, h2, h3⟩
      · rintro ⟨h1, h2, h3⟩
        refine ⟨?_, h2, h3⟩
        rcases List.mem_cons.1 h1 with rfl | h
        · exfalso
          simp [h3, h2] at hf
        · exact h
    · rw [if_neg hf, List.mem_cons, ih]
      have hf2 : bFound primary (comNameOf p) = false ∧ p ∉ seen := by
        simpa using hf
      constructor
      · rintro (rfl | ⟨h1, h2, h3⟩)
        · exact ⟨List.mem_cons_self _ _, hf2.2, hf2.1⟩
        · refine ⟨List.mem_cons_of_mem _ h1, ?_, h3⟩
          intro h
          exact h2 (List.mem_append_left _ h)
      · rintro ⟨h1, h2, h3⟩
        by_cases hnp : n = p
        · exact Or.inl hnp
        · right
          rcases List.mem_cons.1 h1 with h | h
          · exact absurd h hnp
          · refine ⟨h, ?_, h3⟩
            simp [h2, hnp]

theorem freshPorts_nodup (primary : List ListResultItem) (ports : List Nat) :
    ∀ seen, (freshPorts primary seen ports).Nodup := by
  induction ports with
  | nil => intro seen; simp [freshPorts]
  | cons p rest ih =>
    intro seen
    unfold freshPorts
    split_ifs
    · exact ih seen
    · refine List.nodup_cons.2 ⟨?_, ih _⟩
      intro h
      have := ((freshPorts_mem primary rest (seen ++ [p]) p).1 h).2.1
      simp at this

theorem freshPorts_of_nodup (primary : List ListResultItem) (ports : List Nat) :
    ∀ seen, ports.Nodup → (∀ n ∈ ports, n ∉ seen) →
      freshPorts primary seen ports =
        ports.filter (fun n => !bFound primary (comNameOf n)) := by
  induction ports with
  | nil => intro seen _ _; simp [freshPorts]
  | cons p rest ih =>
    intro seen hnd hdis
    have hp : p ∉ seen := hdis p (List.mem_cons_self _ _)
    have hnd2 := List.nodup_cons.1 hnd
    unfold freshPorts
    by_cases hf : bFound primary (comNameOf p) = true
    · simp only [hf, Bool.true_or, if_true, List.filter_cons, Bool.not_true]
      rw [if_neg (by simp)]
      exact ih seen hnd2.2 (fun n hn => hdis n (List.mem_cons_of_mem _ hn))
    · have hf2 : bFound primary (comNameOf p) = false := by simpa using hf
      have hc : seen.contains p = false := by simpa using hp
      simp only [hf2, hc, Bool.or_self, Bool.false_eq_true, if_false, List.filter_cons,
        Bool.not_false, if_true]
      congr 1
      apply ih _ hnd2.2
      intro n hn
      simp only [List.mem_append, List.mem_singleton, not_or]
      refine ⟨hdis n (List.mem_cons_of_mem _ hn), ?_⟩
      rintro rfl
      exact hnd2.1 hn

theorem wmiLoop_eq (colDevices : List PnPEntity) :
    ∀ results, (∀ d ∈ colDevices, wmiRecord d ≠ .nullAssigned) →
      wmiLoop results colDevices =
        some (results ++ colDevices.filterMap (fun d => (wmiRecord d).pushedItem)) := by
  induction colDevices with
  | nil => intro results _; simp [wmiLoop]
  | cons d rest ih =>
    intro results hrows
    have hrest : ∀ x ∈ rest, wmiRecord x ≠ .nullAssigned :=
      fun x hx => hrows x (List.mem_cons_of_mem _ hx)
    have hd := hrows d (List.mem_cons_self _ _)
    unfold wmiLoop
    cases h : wmiRecord d with
    | skipped => simp [List.filterMap_cons, h, RowOutcome.pushedItem, ih results hrest]
    | pushed r =>
      simp [List.filterMap_cons, h, RowOutcome.pushedItem, ih (results ++ [r]) hrest]
    | nullAssigned => exact absurd h hd

/-- A row that names a port and has a null manufacturer or identifier stops `EIO_List`:
no result list is returned. -/
theorem EIO_List_none_of_nullAssigned (colDevices : List PnPEntity) (dos : QueryDosDevice) :
    ∀ results, (∃ d ∈ colDevices, wmiRecord d = .nullAssigned) →
      EIO_List results colDevices dos = none := by
  have hloop : ∀ results, (∃ d ∈ colDevices, wmiRecord d = .nullAssigned) →
      wmiLoop results colDevices = none := by
    induction colDevices with
    | nil => intro results h; simp at h
    | cons d rest ih =>
      intro results h
      unfold wmiLoop
      cases hd : wmiRecord d with
      | nullAssigned => rfl
      | skipped =>
        obtain ⟨x, hx, hxn⟩ := h
        rcases List.mem_cons.1 hx with rfl | hx
        · rw [hd] at hxn; cases hxn
        · exact ih results ⟨x, hx, hxn⟩
      | pushed r =>
        obtain ⟨x, hx, hxn⟩ := h
        rcases List.mem_cons.1 hx with rfl | hx
        · rw [hd] at hxn; cases hxn
        · exact ih _ ⟨x, hx, hxn⟩
  intro results h
  simp [EIO_List, hloop results h]

/-- C8: take an inventory whose rows naming a port all have a manufacturer and a device
identifier (no null string is assigned).  The WMI loop then builds the list `P`: the
records the list held before (none for a fresh baton) followed by one record per
plug-and-play row whose name holds `(COM`, in discovery order.  When
`UsingQueryDosDevice` succeeds with the port numbers `S`, `EIO_List` returns `P`,
unchanged, followed by the records of a list `X` of port numbers, each named `COM<n>`
with empty manufacturer and empty device identifier, where `X` keeps the order of `S`,
holds no number twice, and holds exactly the numbers of `S` whose name `COM<n>` no record
of `P` bears under case-insensitive comparison.  When `S` has no repetition, `X` is `S`
filtered by that test. -/
theorem EIO_List_merge (results : List ListResultItem) (colDevices : List PnPEntity)
    (S : List Nat) (hrows : ∀ d ∈ colDevices, wmiRecord d ≠ .nullAssigned) :
    ∃ (P : List ListResultItem) (X : List Nat),
      wmiLoop results colDevices = some P ∧
      P = results ++ colDevices.filterMap (fun d => (wmiRecord d).pushedItem) ∧
      EIO_List results colDevices ⟨true, S⟩ =
        some (P ++ X.map (fun n => ⟨"COM".toList ++ Nat.toDigits 10 n, [], []⟩)) ∧
      X.Sublist S ∧ X.Nodup ∧
      (∀ n, n ∈ X ↔ n ∈ S ∧
        ¬ ∃ r ∈ P, stricmpIsZero r.comName ("COM".toList ++ Nat.toDigits 10 n) = true) ∧
      (S.Nodup → X = S.filter (fun n => !P.any
        (fun r => stricmpIsZero r.comName ("COM".toList ++ Nat.toDigits 10 n)))) := by
  have hP := wmiLoop_eq colDevices results hrows
  obtain ⟨P, hPdef⟩ : ∃ P, P =
      results ++ colDevices.filterMap (fun d => (wmiRecord d).pushedItem) := ⟨_, rfl⟩
  rw [← hPdef] at hP
  refine ⟨P, freshPorts P [] S, hP, hPdef, ?_, freshPorts_sublist _ _ _,
    freshPorts_nodup _ _ _, ?_, ?_⟩
  · have h := portsLoop_eq P S []
    simp only [List.map_nil, List.append_nil] at h
    simp only [EIO_List, hP, if_true]
    exact congrArg some h
  · intro n
    rw [freshPorts_mem]
    simp [bFound, comNameOf]
  · intro hnd
    exact freshPorts_of_nodup _ S [] hnd (by simp)

/-- C8, applied to a primary record `COM3` and the port numbers 3, 1, 1, 12: the result
is the primary record followed by the records of `COM1` and `COM12`. -/
theorem EIO_List_merge_witness :
    EIO_List []
      [⟨some "USB Serial Port (COM3)".toList, some "FTDIBUS".toList, some "FTDI".toList⟩]
      ⟨true, [3, 1, 1, 12]⟩ =
      some [⟨"COM3".toList, "FTDI".toList, "FTDIBUS".toList⟩, ⟨"COM1".toList, [], []⟩,
       ⟨"COM12".toList, [], []⟩] ∧
    ∃ (P : List ListResultItem) (X : List Nat),
      wmiLoop []
        [⟨some "USB Serial Port (COM3)".toList, some "FTDIBUS".toList, some "FTDI".toList⟩] =
        some P ∧
      EIO_List []
        [⟨some "USB Serial Port (COM3)".toList, some "FTDIBUS".toList, some "FTDI".toList⟩]
        ⟨true, [3, 1, 1, 12]⟩ =
        some (P ++ X.map (fun n => ⟨"COM".toList ++ Nat.toDigits 10 n, [], []⟩)) ∧
      X.Nodup := by
  refine ⟨by decide, ?_⟩
  obtain ⟨P, X, h1, _, h2, _, h3, _⟩ := EIO_List_merge []
    [⟨some "USB Serial Port (COM3)".toList, some "FTDIBUS".toList, some "FTDI".toList⟩]
    [3, 1, 1, 12] (by decide)
  exact ⟨P, X, h1, h2, h3⟩

theorem stricmpIsZero_refl (a : List Char) : stricmpIsZero a a = true := by
  simp [stricmpIsZero]

theorem portsLoop_names_nodup (ports : List Nat) :
    ∀ results : List ListResultItem, (results.map (fun r => r.comName)).Nodup →
      ((portsLoop results ports).map (fun r => r.comName)).Nodup := by
  induction ports with
  | nil => intro results h; simpa [portsLoop] using h
  | cons p rest ih =>
    intro results h
    unfold portsLoop
    by_cases hf : bFound results (comNameOf p) = true
    · rw [if_neg (by simp [hf])]
      exact ih results h
    · rw [if_pos (by simpa using hf)]
      apply ih
      rw [List.map_append, List.nodup_append]
      refine ⟨h, by simp, ?_⟩
      intro a ha hb
      simp only [List.map_cons, List.map_nil, List.mem_singleton] at hb
      subst hb
      apply hf
      obtain ⟨r, hr, hname⟩ := List.mem_map.1 ha
      simp only [bFound, List.any_eq_true]
      refine ⟨r, hr, ?_⟩
      have hname2 : r.comName = (secondaryRecord p).comName := hname
      rw [hname2]
      exact stricmpIsZero_refl _

theorem portsLoop_extends (ports : List Nat) :
    ∀ results : List ListResultItem, ∃ extra, portsLoop results ports = results ++ extra := by
  induction ports with
  | nil => intro results; exact ⟨[], by simp [portsLoop]⟩
  | cons p rest ih =>
    intro results
    unfold portsLoop
    split_ifs
    · obtain ⟨extra, h⟩ := ih (results ++ [secondaryRecord p])
      exact ⟨secondaryRecord p :: extra, by rw [h]; simp⟩
    · exact ih results

theorem filter_name_of_nodup (l : List ListResultItem) :
    (l.map (fun r => r.comName)).Nodup → ∀ r ∈ l,
      l.filter (fun x => decide (x.comName = r.comName)) = [r] := by
  induction l with
  | nil => intro _ r hr; simp at hr
  | cons a l ih =>
    intro hnd r hr
    simp only [List.map_cons, List.nodup_cons] at hnd
    rcases List.mem_cons.1 hr with rfl | hmem
    · have hnone : l.filter (fun x => decide (x.comName = r.comName)) = [] := by
        rw [List.filter_eq_nil_iff]
        intro x hx hdec
        apply hnd.1
        have hxe : x.comName = r.comName := by simpa using hdec
        rw [← hxe]
        exact List.mem_map.2 ⟨x, hx, rfl⟩
      simp [List.filter_cons, hnone]
    · have hne : ¬ a.comName = r.comName := by
        intro h
        apply hnd.1
        rw [h]
        exact List.mem_map.2 ⟨r, hmem, rfl⟩
      simp only [List.filter_cons, hne, decide_False, Bool.false_eq_true, if_false]
      exact ih hnd.2 r hmem

/-- C3 (counterexample): two plug-and-play rows whose names both hold `(COM3)` give a
result with two records named `COM3`. -/
theorem EIO_List_duplicate_counterexample :
    (EIO_List []
      [⟨some "USB Serial Port (COM3)".toList, some "FTDIBUS".toList, some "FTDI".toList⟩,
       ⟨some "Bluetooth Link (COM3)".toList, some "BTHENUM".toList, some "Microsoft".toList⟩]
      ⟨true, [3]⟩).map (fun result => result.map (fun r => r.comName)) =
      some ["COM3".toList, "COM3".toList] := by
  decide

/-- C3 (amended): take an inventory whose rows naming a port all have a manufacturer and
a device identifier (no null string is assigned).  Then the WMI loop builds its record
list `P` (the primary records, for a fresh baton) and `EIO_List` returns a result list,
whatever `UsingQueryDosDevice` answers; when the records of `P` have pairwise distinct
port names, the result holds no two records with the same port name, and every record of
`P` is the only record of the result that bears its name. -/
theorem EIO_List_unique (results : List ListResultItem) (colDevices : List PnPEntity)
    (dos : QueryDosDevice) (hrows : ∀ d ∈ colDevices, wmiRecord d ≠ .nullAssigned) :
    ∃ (P result : List ListResultItem),
      wmiLoop results colDevices = some P ∧
      EIO_List results colDevices dos = some result ∧
      ((P.map (fun r => r.comName)).Nodup →
        (result.map (fun r => r.comName)).Nodup ∧
        (∀ r ∈ P, result.filter (fun x => decide (x.comName = r.comName)) = [r])) := by
  have hP := wmiLoop_eq colDevices results hrows
  obtain ⟨P, hPdef⟩ : ∃ P, P =
      results ++ colDevices.filterMap (fun d => (wmiRecord d).pushedItem) := ⟨_, rfl⟩
  rw [← hPdef] at hP
  refine ⟨P, if dos.succeeded = true then portsLoop P dos.ports else P, hP,
    by simp only [EIO_List, hP], fun h => ?_⟩
  by_cases hs : dos.succeeded = true
  · rw [if_pos hs]
    have hnd := portsLoop_names_nodup dos.ports P h
    refine ⟨hnd, fun r hr => filter_name_of_nodup _ hnd r ?_⟩
    obtain ⟨extra, he⟩ := portsLoop_extends dos.ports P
    rw [he]
    exact List.mem_append_left _ hr
  · rw [if_neg hs]
    exact ⟨h, fun r hr => filter_name_of_nodup _ h r hr⟩

/-- C3 (amended), applied to a primary record `COM3` made by FTDI and the secondary port
number 3: the result has exactly one record named `COM3`, the primary one. -/
theorem EIO_List_unique_witness :
    EIO_List []
      [⟨some "USB Serial Port (COM3)".toList, some "FTDIBUS".toList, some "FTDI".toList⟩]
      ⟨true, [3]⟩ = some [⟨"COM3".toList, "FTDI".toList, "FTDIBUS".toList⟩] ∧
    ∃ (P result : List ListResultItem),
      wmiLoop []
        [⟨some "USB Serial Port (COM3)".toList, some "FTDIBUS".toList, some "FTDI".toList⟩] =
        some P ∧
      EIO_List []
        [⟨some "USB Serial Port (COM3)".toList, some "FTDIBUS".toList, some "FTDI".toList⟩]
        ⟨true, [3]⟩ = some result := by
  refine ⟨by decide, ?_⟩
  obtain ⟨P, result, h1, h2, _⟩ := EIO_List_unique []
    [⟨some "USB Serial Port (COM3)".toList, some "FTDIBUS".toList, some "FTDI".toList⟩]
    ⟨true, [3]⟩ (by decide)
  exact ⟨P, result, h1, h2⟩

/-- Evaluation with a null manufacturer: the row names `COM3`, line 508 assigns the null
pointer, and no list is returned. -/
theorem EIO_List_null_manufacturer :
    EIO_List [] [⟨some "USB Serial Port (COM3)".toList, some "FTDIBUS".toList, none⟩]
      ⟨true, [3]⟩ = none := by
  decide

/-- C6, applied to an iteration that read five bytes on handle 7: the data callback is
followed by exactly one queued iteration for handle 7. -/
theorem EIO_AfterWatchPort_continuation_witness :
    (EIO_AfterWatchPort [] false ⟨7, 5, [], 0, false⟩).actions.filter WatchAction.isQueue = [] ∨
    (EIO_AfterWatchPort [] false ⟨7, 5, [], 0, false⟩).actions.filter WatchAction.isQueue =
      [.queueWatchPort (AfterOpenSuccess 7)] :=
  (EIO_AfterWatchPort_continuation [] false ⟨7, 5, [], 0, false⟩).2.1

end SerialportWin
